import Mathlib

/-!
Verification of the multi-method discovery-and-merge engine of the
asset-management service.  The definitions below are shallow embeddings of the
Go source under src/: pure functions become Lean functions, machine integers
become Nat/Int with explicit truncation where overflow matters, network I/O
outcomes become explicit oracle parameters, and the one genuinely concurrent
routine (ScanNetworkParallel) becomes a small labelled transition system whose
traces are checked by an executable step function.
-/

namespace AssetMgmt

/-! ## Port scanning data model (src/pkg/network/port_scanner.go, lines 13-43)

Go models PortState and ScanType as strings; we keep the literal string
constants of the source. -/

/-- PortState constant "open" (port_scanner.go line 18). -/
def PortOpen : String := "open"

/-- PortState constant "closed" (port_scanner.go line 20). -/
def PortClosed : String := "closed"

/-- PortState constant "filtered" (port_scanner.go line 22). -/
def PortFiltered : String := "filtered"

/-- ScanType constant "tcp" (port_scanner.go line 30). -/
def ScanTCP : String := "tcp"

/-- ScanType constant "udp" (port_scanner.go line 32). -/
def ScanUDP : String := "udp"

/-- PortScanResult (port_scanner.go lines 36-43). -/
structure PortScanResult where
  IP : String
  Port : Int
  Protocol : String
  State : String
  Service : String
  Banner : String := ""
  deriving DecidableEq

/-- Service lookup table of lookupService (port_scanner.go lines 296-351):
a static map keyed by (port, transport); unknown combinations yield the
literal "unknown". -/
def lookupService (port : Int) (protocol : String) : String :=
  if protocol = ScanTCP then
    if port = 20 then "FTP-data"
    else if port = 21 then "FTP"
    else if port = 22 then "SSH"
    else if port = 23 then "Telnet"
    else if port = 25 then "SMTP"
    else if port = 53 then "DNS"
    else if port = 80 then "HTTP"
    else if port = 110 then "POP3"
    else if port = 111 then "RPC"
    else if port = 135 then "RPC"
    else if port = 139 then "NetBIOS"
    else if port = 143 then "IMAP"
    else if port = 443 then "HTTPS"
    else if port = 445 then "SMB"
    else if port = 993 then "IMAP-SSL"
    else if port = 995 then "POP3-SSL"
    else if port = 1723 then "PPTP"
    else if port = 3306 then "MySQL"
    else if port = 3389 then "RDP"
    else if port = 5900 then "VNC"
    else if port = 8080 then "HTTP-Proxy"
    else "unknown"
  else if protocol = ScanUDP then
    if port = 53 then "DNS"
    else if port = 67 then "DHCP-Server"
    else if port = 68 then "DHCP-Client"
    else if port = 69 then "TFTP"
    else if port = 123 then "NTP"
    else if port = 135 then "RPC"
    else if port = 137 then "NetBIOS-NS"
    else if port = 138 then "NetBIOS-DGM"
    else if port = 161 then "SNMP"
    else if port = 162 then "SNMP-Trap"
    else if port = 445 then "SMB"
    else if port = 514 then "Syslog"
    else if port = 631 then "IPP"
    else if port = 1900 then "SSDP"
    else "unknown"
  else "unknown"

/-! ## UDP port probing (PortScanner.scanUDPPort, port_scanner.go lines 140-197)

The network environment is abstracted into explicit parameters: `dialOk`
models success of net.DialTimeout, `writeOk` success of conn.Write, and
`readResult` the outcome of conn.Read after the probe was sent: `some s`
stands for err == nil with `s` the bytes read (n = s.length), `none` for a
read error (timeout included). -/

/-- Shallow embedding of PortScanner.scanUDPPort (port_scanner.go 140-197). -/
def scanUDPPort (ip : String) (port : Int) (dialOk writeOk : Bool)
    (readResult : Option String) : PortScanResult :=
  if !dialOk then
    { IP := ip, Port := port, Protocol := ScanUDP, State := PortFiltered
      Service := lookupService port ScanUDP }
  else if !writeOk then
    { IP := ip, Port := port, Protocol := ScanUDP, State := PortFiltered
      Service := lookupService port ScanUDP }
  else
    match readResult with
    | some s =>
        if s.length > 0 then
          { IP := ip, Port := port, Protocol := ScanUDP, State := PortOpen
            Service := lookupService port ScanUDP, Banner := s }
        else
          { IP := ip, Port := port, Protocol := ScanUDP, State := PortFiltered
            Service := lookupService port ScanUDP }
    | none =>
        { IP := ip, Port := port, Protocol := ScanUDP, State := PortFiltered
          Service := lookupService port ScanUDP }

/-- Probe payload written by PortScanner.scanUDPPort for every port
(port_scanner.go line 156): the bytes of the literal "Hello\n". -/
def portScannerUDPProbe (_port : Int) : List Nat :=
  [0x48, 0x65, 0x6c, 0x6c, 0x6f, 0x0a]

/-- Shallow embedding of PublicAssetScanner.getUDPProbe
(src/pkg/network/arp_parallel.go lines 499-514): literal protocol probes for
ports 53 (DNS), 123 (NTP) and 161 (SNMP), the empty payload otherwise. -/
def getUDPProbe (port : Int) : List Nat :=
  if port = 53 then
    [0x00, 0x01, 0x01, 0x00, 0x00, 0x01, 0x00, 0x00, 0x00, 0x00, 0x00, 0x00,
     0x06, 0x67, 0x6f, 0x6f, 0x67, 0x6c, 0x65, 0x03, 0x63, 0x6f, 0x6d, 0x00,
     0x00, 0x01, 0x00, 0x01]
  else if port = 123 then
    [0x1b, 0x00, 0x00, 0x00, 0x00, 0x00, 0x00, 0x00, 0x00, 0x00, 0x00, 0x00,
     0x00, 0x00, 0x00, 0x00, 0x00, 0x00, 0x00, 0x00, 0x00, 0x00, 0x00, 0x00,
     0x00, 0x00, 0x00, 0x00, 0x00, 0x00, 0x00, 0x00, 0x00, 0x00, 0x00, 0x00,
     0x00, 0x00, 0x00, 0x00, 0x00, 0x00, 0x00, 0x00, 0x00, 0x00, 0x00, 0x00]
  else if port = 161 then
    [0x30, 0x29, 0x02, 0x01, 0x00, 0x04, 0x06, 0x70, 0x75, 0x62, 0x6c, 0x69,
     0x63, 0xa0, 0x1c, 0x02, 0x01, 0x01, 0x02, 0x01, 0x00, 0x02, 0x01, 0x00,
     0x30, 0x11, 0x30, 0x0f, 0x06, 0x0b, 0x2b, 0x06, 0x01, 0x04, 0x01, 0x94,
     0x78, 0x01, 0x02, 0x07, 0x03, 0x05, 0x00]
  else []

/-! ## Scanner constructors and their worker normalization -/

/-- ParallelARPScanner configuration fields (arp_parallel.go lines 11-16);
the embedded link-layer socket resources are I/O handles and are not part of
the pure model. -/
structure ParallelARPScanner where
  timeout : Int
  workers : Int
  rateLimit : Int
  deriving DecidableEq

/-- NewParallelARPScanner (arp_parallel.go lines 19-36).  The NewARPScanner
call performs I/O (interface lookup and link-layer dial); its success is
modelled by `baseOk`.  On success, a non-positive workers argument is replaced
by the default 10. -/
def NewParallelARPScanner (baseOk : Bool) (timeout workers rateLimit : Int) :
    Option ParallelARPScanner :=
  if baseOk then
    some { timeout := timeout
           workers := if workers ≤ 0 then 10 else workers
           rateLimit := rateLimit }
  else none

/-- PortScanner record (port_scanner.go lines 46-50). -/
structure PortScanner where
  timeout : Int
  concurrency : Int
  retries : Int
  deriving DecidableEq

/-- NewPortScanner (port_scanner.go lines 53-65): a non-positive concurrency
becomes the default 100, a negative retries becomes the default 2. -/
def NewPortScanner (timeout concurrency retries : Int) : PortScanner :=
  { timeout := timeout
    concurrency := if concurrency ≤ 0 then 100 else concurrency
    retries := if retries < 0 then 2 else retries }

/-- PublicAssetScanner configuration fields (arp_parallel.go lines 208-214). -/
structure PublicAssetScanner where
  timeout : Int
  concurrency : Int
  retries : Int
  deriving DecidableEq

/-- NewPublicAssetScanner (arp_parallel.go lines 217-230): a non-positive
concurrency becomes the default 50, a negative retries becomes the default 2. -/
def NewPublicAssetScanner (timeout concurrency retries : Int) : PublicAssetScanner :=
  { timeout := timeout
    concurrency := if concurrency ≤ 0 then 50 else concurrency
    retries := if retries < 0 then 2 else retries }

/-! ## TCP connection probing (pingTCP, ping.go lines 102-114, and
performTCPDiscovery, src/unnamed/part_000 lines 182-205)

Both loops walk the same fixed port list in order and break on the first
successful net.DialTimeout.  Connection outcomes are abstracted into the
oracle `dial : Int → Bool`. -/

/-- The fixed TCP discovery port list (part_000 line 184; the identical list
appears at ping.go line 104). -/
def tcpPorts : List Int :=
  [22, 23, 25, 53, 80, 135, 139, 443, 445, 993, 995, 3389, 5900]

/-- The port loop of pingTCP: try each port in order, return true on the
first successful connection (the loop breaks), false after the list is
exhausted.  List.any is exactly this short-circuiting loop. -/
def pingTCP (dial : Int → Bool) : Bool :=
  tcpPorts.any dial

/-- The same loop instrumented to record, in order, the ports on which a
connection was actually attempted: the loop body dials `p` exactly once per
iteration and breaks right after a success. -/
def tryPortsTrace (dial : Int → Bool) : List Int → Bool × List Int
  | [] => (false, [])
  | p :: ps =>
      if dial p then (true, [p])
      else
        let r := tryPortsTrace dial ps
        (r.1, p :: r.2)

lemma tryPortsTrace_fst (dial : Int → Bool) (ps : List Int) :
    (tryPortsTrace dial ps).1 = ps.any dial := by
  induction ps with
  | nil => rfl
  | cons p ps ih =>
      simp only [tryPortsTrace, List.any_cons]
      by_cases h : dial p <;> simp [h, ih]

lemma tryPortsTrace_snd (dial : Int → Bool) (ps : List Int) :
    (tryPortsTrace dial ps).2 =
      ps.takeWhile (fun p => !dial p) ++ (ps.dropWhile (fun p => !dial p)).take 1 := by
  induction ps with
  | nil => rfl
  | cons p ps ih =>
      simp only [tryPortsTrace]
      by_cases h : dial p
      · simp [h, List.takeWhile_cons, List.dropWhile_cons]
      · simp [h, List.takeWhile_cons, List.dropWhile_cons, ih]

lemma tryPortsTrace_snd_sublist (dial : Int → Bool) (ps : List Int) :
    (tryPortsTrace dial ps).2.Sublist ps := by
  rw [tryPortsTrace_snd]
  have h1 : ((ps.takeWhile (fun p => !dial p)) ++
      (ps.dropWhile (fun p => !dial p)).take 1).Sublist
      ((ps.takeWhile (fun p => !dial p)) ++ (ps.dropWhile (fun p => !dial p))) :=
    List.Sublist.append (List.Sublist.refl _) (List.take_sublist _ _)
  have h2 : (ps.takeWhile (fun p => !dial p)) ++ (ps.dropWhile (fun p => !dial p)) = ps :=
    List.takeWhile_append_dropWhile _ _
  rw [h2] at h1
  exact h1

/-- Claim C5: for every address, the TCP connection probe tries the fixed port
list 22, 23, 25, 53, 80, 135, 139, 443, 445, 993, 995, 3389, 5900 in that
order, reports the address live immediately upon the first successful
connection without attempting further ports, reports it not found only after
every port has failed, and retries no port.  The attempted-port trace equals
all leading failing ports followed by the first succeeding one (if any); it
never repeats a port; and a negative report implies the whole list was
attempted. -/
theorem pingTCP_short_circuit (dial : Int → Bool) :
    (tryPortsTrace dial tcpPorts).1 = pingTCP dial ∧
    (tryPortsTrace dial tcpPorts).2 =
      tcpPorts.takeWhile (fun p => !dial p) ++
        (tcpPorts.dropWhile (fun p => !dial p)).take 1 ∧
    (tryPortsTrace dial tcpPorts).2.Nodup ∧
    (pingTCP dial = false → (tryPortsTrace dial tcpPorts).2 = tcpPorts) := by
  refine ⟨tryPortsTrace_fst dial tcpPorts, tryPortsTrace_snd dial tcpPorts, ?_, ?_⟩
  · exact List.Nodup.sublist (tryPortsTrace_snd_sublist dial tcpPorts) (by decide)
  · intro hfail
    rw [tryPortsTrace_snd]
    have hall : ∀ p ∈ tcpPorts, (fun p => !dial p) p = true := by
      intro p hp
      have := (List.any_eq_false).1 (by simpa [pingTCP] using hfail) p hp
      simpa using this
    rw [List.takeWhile_eq_self_iff.2 hall, List.dropWhile_eq_nil_iff.2 ?_]
    · simp
    · intro p hp
      simpa using hall p hp

/-- Witness for C5 at a concrete dial oracle: when no port ever answers, the
probe reports not-found and the attempt trace is exactly the full port list;
when port 22 answers, the probe reports live with a single attempt. -/
theorem pingTCP_short_circuit_witness :
    ((tryPortsTrace (fun _ => false) tcpPorts).2 = tcpPorts ∧
      pingTCP (fun _ => false) = false) ∧
    ((tryPortsTrace (fun p => p = 22) tcpPorts).2 = [22] ∧
      pingTCP (fun p => p = 22) = true) := by
  refine ⟨⟨(pingTCP_short_circuit (fun _ => false)).2.2.2 (by decide), by decide⟩, ?_, by decide⟩
  have h := (pingTCP_short_circuit (fun p => decide (p = 22))).2.1
  rw [h]
  decide

/-- Claim C6: a UDP probe by PortScanner.scanUDPPort whose read yields at
least one byte is classified open with the received bytes as banner; a probe
with no response is classified filtered; the state closed is never produced
for a UDP probe. -/
theorem scanUDPPort_spec (ip : String) (port : Int) (dialOk writeOk : Bool)
    (readResult : Option String) :
    (scanUDPPort ip port dialOk writeOk readResult).State ≠ PortClosed ∧
    (∀ s, readResult = some s → s ≠ "" → dialOk = true → writeOk = true →
      (scanUDPPort ip port dialOk writeOk readResult).State = PortOpen ∧
      (scanUDPPort ip port dialOk writeOk readResult).Banner = s) ∧
    (readResult = none →
      (scanUDPPort ip port dialOk writeOk readResult).State = PortFiltered) := by
  refine ⟨?_, ?_, ?_⟩
  · unfold scanUDPPort
    split
    · simp [PortFiltered, PortClosed]
    · split
      · simp [PortFiltered, PortClosed]
      · split
        · split
          · simp [PortOpen, PortClosed]
          · simp [PortFiltered, PortClosed]
        · simp [PortFiltered, PortClosed]
  · rintro s rfl hs rfl rfl
    have hlen : s.length > 0 := by
      cases s with
      | mk data =>
        cases data with
        | nil => exact absurd (by decide) hs
        | cons c cs => simp [String.length]
    simp [scanUDPPort, hlen]
  · rintro rfl
    unfold scanUDPPort
    split
    · simp
    · split <;> simp

/-- Witness for C6 at port 161: any reply bytes give state open carrying the
reply as banner, absence of a reply gives state filtered, and neither case is
ever the state closed. -/
theorem scanUDPPort_spec_witness :
    ((scanUDPPort "10.0.0.5" 161 true true (some "resp")).State = PortOpen ∧
      (scanUDPPort "10.0.0.5" 161 true true (some "resp")).Banner = "resp") ∧
    (scanUDPPort "10.0.0.5" 161 true true none).State = PortFiltered ∧
    (scanUDPPort "10.0.0.5" 161 true true (some "resp")).State ≠ PortClosed :=
  ⟨(scanUDPPort_spec "10.0.0.5" 161 true true (some "resp")).2.1 "resp" rfl
      (by decide) rfl rfl,
    (scanUDPPort_spec "10.0.0.5" 161 true true none).2.2 rfl,
    (scanUDPPort_spec "10.0.0.5" 161 true true (some "resp")).1⟩

/-- Counterexample to C7: the claim quantifies over every datagram port probe,
but the datagram probe of PortScanner.scanUDPPort (port_scanner.go line 156)
writes the generic bytes of "Hello\n" for every port — in particular for port
53 it does not send the literal DNS probe bytes that getUDPProbe would
prescribe. -/
theorem portScannerUDPProbe_not_protocol :
    portScannerUDPProbe 53 = [0x48, 0x65, 0x6c, 0x6c, 0x6f, 0x0a] ∧
    portScannerUDPProbe 53 ≠ getUDPProbe 53 := by
  constructor
  · rfl
  · decide

/-- Claim C7 as amended: the PublicAssetScanner datagram probe (getUDPProbe)
sends the literal protocol-correct probe bytes for ports 53, 123 and 161 and
the empty payload for every other port, while the PortScanner datagram probe
always sends the generic 6-byte payload "Hello\n" regardless of port. -/
theorem getUDPProbe_spec (port : Int) (h53 : port ≠ 53) (h123 : port ≠ 123)
    (h161 : port ≠ 161) :
    getUDPProbe 53 =
      [0x00, 0x01, 0x01, 0x00, 0x00, 0x01, 0x00, 0x00, 0x00, 0x00, 0x00, 0x00,
       0x06, 0x67, 0x6f, 0x6f, 0x67, 0x6c, 0x65, 0x03, 0x63, 0x6f, 0x6d, 0x00,
       0x00, 0x01, 0x00, 0x01] ∧
    getUDPProbe 123 =
      [0x1b, 0x00, 0x00, 0x00, 0x00, 0x00, 0x00, 0x00, 0x00, 0x00, 0x00, 0x00,
       0x00, 0x00, 0x00, 0x00, 0x00, 0x00, 0x00, 0x00, 0x00, 0x00, 0x00, 0x00,
       0x00, 0x00, 0x00, 0x00, 0x00, 0x00, 0x00, 0x00, 0x00, 0x00, 0x00, 0x00,
       0x00, 0x00, 0x00, 0x00, 0x00, 0x00, 0x00, 0x00, 0x00, 0x00, 0x00, 0x00] ∧
    getUDPProbe 161 =
      [0x30, 0x29, 0x02, 0x01, 0x00, 0x04, 0x06, 0x70, 0x75, 0x62, 0x6c, 0x69,
       0x63, 0xa0, 0x1c, 0x02, 0x01, 0x01, 0x02, 0x01, 0x00, 0x02, 0x01, 0x00,
       0x30, 0x11, 0x30, 0x0f, 0x06, 0x0b, 0x2b, 0x06, 0x01, 0x04, 0x01, 0x94,
       0x78, 0x01, 0x02, 0x07, 0x03, 0x05, 0x00] ∧
    getUDPProbe port = [] ∧
    portScannerUDPProbe port = [0x48, 0x65, 0x6c, 0x6c, 0x6f, 0x0a] := by
  refine ⟨by decide, by decide, by decide, ?_, rfl⟩
  simp [getUDPProbe, h53, h123, h161]

/-- Witness for C7 (amended) at port 80: an other-than-well-known port gets
the empty payload from getUDPProbe and the generic payload from the
PortScanner probe. -/
theorem getUDPProbe_spec_witness :
    getUDPProbe 80 = [] ∧ portScannerUDPProbe 80 = [0x48, 0x65, 0x6c, 0x6c, 0x6f, 0x0a] :=
  ⟨(getUDPProbe_spec 80 (by decide) (by decide) (by decide)).2.2.2.1,
    (getUDPProbe_spec 80 (by decide) (by decide) (by decide)).2.2.2.2⟩

/-- Claim C10: every scanner constructor normalizes a non-positive
worker/concurrency argument to its positive default (10 for
NewParallelARPScanner, 100 for NewPortScanner, 50 for NewPublicAssetScanner),
so every successfully constructed scanner has a strictly positive worker-pool
size. -/
theorem constructors_positive_workers (baseOk : Bool) (t w rl c r : Int) :
    (∀ sc, NewParallelARPScanner baseOk t w rl = some sc →
      0 < sc.workers ∧ (w ≤ 0 → sc.workers = 10) ∧ (0 < w → sc.workers = w)) ∧
    (0 < (NewPortScanner t c r).concurrency ∧
      (c ≤ 0 → (NewPortScanner t c r).concurrency = 100) ∧
      (0 < c → (NewPortScanner t c r).concurrency = c)) ∧
    (0 < (NewPublicAssetScanner t c r).concurrency ∧
      (c ≤ 0 → (NewPublicAssetScanner t c r).concurrency = 50) ∧
      (0 < c → (NewPublicAssetScanner t c r).concurrency = c)) := by
  refine ⟨?_, ⟨?_, ?_, ?_⟩, ?_, ?_, ?_⟩
  · intro sc hsc
    unfold NewParallelARPScanner at hsc
    split at hsc
    · cases hsc
      by_cases hw : w ≤ 0 <;> simp [hw]
      all_goals omega
    · cases hsc
  · unfold NewPortScanner
    by_cases hc : c ≤ 0 <;> simp [hc]
    all_goals omega
  · intro hc
    simp [NewPortScanner, hc]
  · intro hc
    have : ¬ c ≤ 0 := by omega
    simp [NewPortScanner, this]
  · unfold NewPublicAssetScanner
    by_cases hc : c ≤ 0 <;> simp [hc]
    all_goals omega
  · intro hc
    simp [NewPublicAssetScanner, hc]
  · intro hc
    have : ¬ c ≤ 0 := by omega
    simp [NewPublicAssetScanner, this]

/-- Witness for C10 at concrete non-positive arguments: workers 0 becomes 10,
concurrency 0 becomes 100 and 50 respectively. -/
theorem constructors_positive_workers_witness :
    (0 < (10 : Int) ∧ ((0 : Int) ≤ 0 → (10 : Int) = 10)) ∧
    (NewPortScanner 2 0 2).concurrency = 100 ∧
    (NewPublicAssetScanner 2 0 2).concurrency = 50 := by
  refine ⟨?_, ?_, ?_⟩
  · have h := (constructors_positive_workers true 2 0 0 0 2).1
      { timeout := 2, workers := 10, rateLimit := 0 } (by decide)
    exact ⟨h.1, fun _ => rfl⟩
  · exact (constructors_positive_workers true 2 0 0 0 2).2.1.2.1 (by decide)
  · exact (constructors_positive_workers true 2 0 0 0 2).2.2.2.1 (by decide)

/-! ## Enhanced discovery data model (src/unnamed/part_000)

DiscoveryResult (lines 22-34).  time.Duration is modelled as a Nat of
nanoseconds (its Go zero value is 0); the ARPError/ICMPError fields are never
assigned anywhere in the source and are omitted. -/

/-- DiscoveryResult (part_000 lines 22-34). -/
@[ext]
structure DiscoveryResult where
  IP : String
  FoundByARP : Bool := false
  FoundByICMP : Bool := false
  FoundByTCP : Bool := false
  MAC : String := ""
  Vendor : String := ""
  Hostname : String := ""
  OpenPorts : List PortScanResult := []
  ResponseTime : Nat := 0
  deriving DecidableEq

/-- Shallow embedding of EnhancedDiscovery.mergeResults (part_000 lines
208-229): combine a later finding `incoming` into the `existing` record for
the same IP.  A discovery flag is only ever raised, and a data field is only
overwritten when the incoming value is non-empty / non-zero. -/
def mergeResults (existing incoming : DiscoveryResult) : DiscoveryResult :=
  let e1 :=
    if incoming.FoundByARP then
      { existing with
        FoundByARP := true
        MAC := if incoming.MAC ≠ "" then incoming.MAC else existing.MAC
        Vendor := if incoming.Vendor ≠ "" then incoming.Vendor else existing.Vendor }
    else existing
  let e2 :=
    if incoming.FoundByICMP then
      { e1 with
        FoundByICMP := true
        ResponseTime :=
          if incoming.ResponseTime > 0 then incoming.ResponseTime else e1.ResponseTime }
    else e1
  if incoming.FoundByTCP then { e2 with FoundByTCP := true } else e2

/-- One probing method's partial finding for one address, exactly as the three
producers build their DiscoveryResult values: performARPDiscovery (part_000
lines 154-162) carries MAC and vendor, performICMPDiscovery (lines 169-178)
carries the round-trip time, performTCPDiscovery (lines 197-203) carries
nothing extra. -/
inductive ProbeFinding where
  | arp (mac vendor : String)
  | icmp (rtt : Nat)
  | tcp
  deriving DecidableEq

/-- The DiscoveryResult a producer pushes on the shared channel for address
`ip` (part_000 lines 155-160, 171-175, 198-201). -/
def ProbeFinding.toResult (ip : String) : ProbeFinding → DiscoveryResult
  | .arp mac vendor => { IP := ip, FoundByARP := true, MAC := mac, Vendor := vendor }
  | .icmp rtt => { IP := ip, FoundByICMP := true, ResponseTime := rtt }
  | .tcp => { IP := ip, FoundByTCP := true }

/-- Per-address merge of the orchestrator's collection loop (part_000 lines
112-120): the first finding for an address becomes the initial record, each
later finding is folded in with mergeResults. -/
def mergeSeq : List DiscoveryResult → Option DiscoveryResult
  | [] => none
  | r :: rs => some (rs.foldl mergeResults r)

/-- Two findings do not disagree on any data field: whenever both carry a
non-empty MAC, vendor, or non-zero round-trip time, the two values agree. -/
def NonConflicting (a b : DiscoveryResult) : Prop :=
  (a.MAC ≠ "" → b.MAC ≠ "" → a.MAC = b.MAC) ∧
  (a.Vendor ≠ "" → b.Vendor ≠ "" → a.Vendor = b.Vendor) ∧
  (a.ResponseTime ≠ 0 → b.ResponseTime ≠ 0 → a.ResponseTime = b.ResponseTime)

instance (a b : DiscoveryResult) : Decidable (NonConflicting a b) := by
  unfold NonConflicting
  infer_instance

lemma NonConflicting.symm {a b : DiscoveryResult} (h : NonConflicting a b) :
    NonConflicting b a :=
  ⟨fun hb ha => (h.1 ha hb).symm, fun hb ha => (h.2.1 ha hb).symm,
    fun hb ha => (h.2.2 ha hb).symm⟩

/-! Field-wise characterization of mergeResults. -/

lemma mergeResults_IP (e i : DiscoveryResult) : (mergeResults e i).IP = e.IP := by
  simp only [mergeResults]
  split_ifs <;> rfl

lemma mergeResults_Hostname (e i : DiscoveryResult) :
    (mergeResults e i).Hostname = e.Hostname := by
  simp only [mergeResults]
  split_ifs <;> rfl

lemma mergeResults_OpenPorts (e i : DiscoveryResult) :
    (mergeResults e i).OpenPorts = e.OpenPorts := by
  simp only [mergeResults]
  split_ifs <;> rfl

lemma mergeResults_FoundByARP (e i : DiscoveryResult) :
    (mergeResults e i).FoundByARP = (e.FoundByARP || i.FoundByARP) := by
  simp only [mergeResults]
  split_ifs <;> simp_all

lemma mergeResults_FoundByICMP (e i : DiscoveryResult) :
    (mergeResults e i).FoundByICMP = (e.FoundByICMP || i.FoundByICMP) := by
  simp only [mergeResults]
  split_ifs <;> simp_all

lemma mergeResults_FoundByTCP (e i : DiscoveryResult) :
    (mergeResults e i).FoundByTCP = (e.FoundByTCP || i.FoundByTCP) := by
  simp only [mergeResults]
  split_ifs <;> simp_all

lemma mergeResults_MAC (e i : DiscoveryResult) :
    (mergeResults e i).MAC =
      if i.FoundByARP ∧ i.MAC ≠ "" then i.MAC else e.MAC := by
  simp only [mergeResults]
  split_ifs <;> simp_all

lemma mergeResults_Vendor (e i : DiscoveryResult) :
    (mergeResults e i).Vendor =
      if i.FoundByARP ∧ i.Vendor ≠ "" then i.Vendor else e.Vendor := by
  simp only [mergeResults]
  split_ifs <;> simp_all

lemma mergeResults_ResponseTime (e i : DiscoveryResult) :
    (mergeResults e i).ResponseTime =
      if i.FoundByICMP ∧ i.ResponseTime > 0 then i.ResponseTime else e.ResponseTime := by
  simp only [mergeResults]
  split_ifs <;> simp_all

/-- Merging two later findings into the same record commutes when the two
findings do not disagree on any field: applying a then b yields the same
record as applying b then a, whatever the record merged into. -/
lemma mergeResults_swap (r a b : DiscoveryResult) (h : NonConflicting a b) :
    mergeResults (mergeResults r a) b = mergeResults (mergeResults r b) a := by
  obtain ⟨hm, hv, ht⟩ := h
  apply DiscoveryResult.ext
  · rw [mergeResults_IP, mergeResults_IP, mergeResults_IP, mergeResults_IP]
  · rw [mergeResults_FoundByARP, mergeResults_FoundByARP, mergeResults_FoundByARP,
      mergeResults_FoundByARP]
    cases a.FoundByARP <;> cases b.FoundByARP <;> simp
  · rw [mergeResults_FoundByICMP, mergeResults_FoundByICMP, mergeResults_FoundByICMP,
      mergeResults_FoundByICMP]
    cases a.FoundByICMP <;> cases b.FoundByICMP <;> simp
  · rw [mergeResults_FoundByTCP, mergeResults_FoundByTCP, mergeResults_FoundByTCP,
      mergeResults_FoundByTCP]
    cases a.FoundByTCP <;> cases b.FoundByTCP <;> simp
  · rw [mergeResults_MAC, mergeResults_MAC, mergeResults_MAC, mergeResults_MAC]
    by_cases h1 : b.FoundByARP = true ∧ b.MAC ≠ ""
    · by_cases h2 : a.FoundByARP = true ∧ a.MAC ≠ ""
      · simp [h1, h2, hm h2.2 h1.2]
      · simp [h1, h2]
    · by_cases h2 : a.FoundByARP = true ∧ a.MAC ≠ ""
      · simp [h1, h2]
      · simp [h1, h2]
  · rw [mergeResults_Vendor, mergeResults_Vendor, mergeResults_Vendor, mergeResults_Vendor]
    by_cases h1 : b.FoundByARP = true ∧ b.Vendor ≠ ""
    · by_cases h2 : a.FoundByARP = true ∧ a.Vendor ≠ ""
      · simp [h1, h2, hv h2.2 h1.2]
      · simp [h1, h2]
    · by_cases h2 : a.FoundByARP = true ∧ a.Vendor ≠ ""
      · simp [h1, h2]
      · simp [h1, h2]
  · rw [mergeResults_Hostname, mergeResults_Hostname, mergeResults_Hostname,
      mergeResults_Hostname]
  · rw [mergeResults_OpenPorts, mergeResults_OpenPorts, mergeResults_OpenPorts,
      mergeResults_OpenPorts]
  · rw [mergeResults_ResponseTime, mergeResults_ResponseTime, mergeResults_ResponseTime,
      mergeResults_ResponseTime]
    by_cases h1 : b.FoundByICMP = true ∧ b.ResponseTime > 0
    · by_cases h2 : a.FoundByICMP = true ∧ a.ResponseTime > 0
      · simp [h1, h2, ht (Nat.pos_iff_ne_zero.mp h2.2) (Nat.pos_iff_ne_zero.mp h1.2)]
      · simp [h1, h2]
    · by_cases h2 : a.FoundByICMP = true ∧ a.ResponseTime > 0
      · simp [h1, h2]
      · simp [h1, h2]

/-- Folding pairwise non-conflicting findings with mergeResults is invariant
under permutation of the findings, whatever the initial record. -/
lemma foldl_mergeResults_perm {l₁ l₂ : List DiscoveryResult} (hp : l₁.Perm l₂) :
    l₁.Pairwise NonConflicting →
      ∀ r, l₁.foldl mergeResults r = l₂.foldl mergeResults r := by
  induction hp with
  | nil => intro _ r; rfl
  | cons x hp ih =>
      intro hnc r
      simp only [List.foldl_cons]
      exact ih (List.pairwise_cons.mp hnc).2 (mergeResults r x)
  | swap x y l =>
      intro hnc r
      have hyx : NonConflicting y x :=
        (List.pairwise_cons.mp hnc).1 x (List.mem_cons_self x l)
      simp only [List.foldl_cons]
      rw [mergeResults_swap r y x hyx]
  | trans h1 h2 ih1 ih2 =>
      intro hnc r
      refine (ih1 hnc r).trans (ih2 ?_ r)
      exact (h1.pairwise_iff fun h => h.symm).mp hnc

/-- The zero-valued DiscoveryResult for an address: what a record looks like
before any data field is populated. -/
def emptyResult (ip : String) : DiscoveryResult := { IP := ip }

/-- A producer's finding merged into the zero record for its address is that
finding itself, so treating the first finding as initial record coincides
with folding from the zero record. -/
lemma mergeResults_emptyResult (ip : String) (f : ProbeFinding) :
    mergeResults (emptyResult ip) (f.toResult ip) = f.toResult ip := by
  cases f <;>
    apply DiscoveryResult.ext <;>
      simp [mergeResults_IP, mergeResults_FoundByARP, mergeResults_FoundByICMP,
        mergeResults_FoundByTCP, mergeResults_MAC, mergeResults_Vendor,
        mergeResults_Hostname, mergeResults_OpenPorts, mergeResults_ResponseTime,
        emptyResult, ProbeFinding.toResult] <;>
      simp_all

lemma mergeSeq_map_eq_foldl_empty (ip : String) (fs : List ProbeFinding)
    (hne : fs ≠ []) :
    mergeSeq (fs.map (ProbeFinding.toResult ip)) =
      some ((fs.map (ProbeFinding.toResult ip)).foldl mergeResults (emptyResult ip)) := by
  cases fs with
  | nil => exact absurd rfl hne
  | cons f t =>
      simp only [List.map_cons, mergeSeq, List.foldl_cons, mergeResults_emptyResult]

/-- Claim C1: for every address and every finite sequence of probe findings
for that address in which no two findings carry disagreeing non-empty values
for the same field, merging the sequence via the orchestrator's per-address
merge (the first finding becomes the initial record, each later finding is
applied with mergeResults) yields, for every permutation of the sequence, the
same final discovery-method flags and the same non-empty MAC, Vendor and
ResponseTime values. -/
theorem mergeSeq_perm_invariant (ip : String) (fs₁ fs₂ : List ProbeFinding)
    (r₁ r₂ : DiscoveryResult) (hperm : fs₁.Perm fs₂)
    (hnc : fs₁.Pairwise fun x y => NonConflicting (x.toResult ip) (y.toResult ip))
    (h₁ : mergeSeq (fs₁.map (ProbeFinding.toResult ip)) = some r₁)
    (h₂ : mergeSeq (fs₂.map (ProbeFinding.toResult ip)) = some r₂) :
    (r₁.FoundByARP = r₂.FoundByARP ∧ r₁.FoundByICMP = r₂.FoundByICMP ∧
      r₁.FoundByTCP = r₂.FoundByTCP) ∧
    r₁.MAC = r₂.MAC ∧ r₁.Vendor = r₂.Vendor ∧ r₁.ResponseTime = r₂.ResponseTime := by
  have hne₁ : fs₁ ≠ [] := by
    rintro rfl
    simp [mergeSeq] at h₁
  have hne₂ : fs₂ ≠ [] := by
    rintro rfl
    simp [mergeSeq] at h₂
  rw [mergeSeq_map_eq_foldl_empty ip fs₁ hne₁] at h₁
  rw [mergeSeq_map_eq_foldl_empty ip fs₂ hne₂] at h₂
  have hpm : (fs₁.map (ProbeFinding.toResult ip)).Perm
      (fs₂.map (ProbeFinding.toResult ip)) := hperm.map _
  have hncm : (fs₁.map (ProbeFinding.toResult ip)).Pairwise NonConflicting :=
    List.pairwise_map.mpr hnc
  have hfold := foldl_mergeResults_perm hpm hncm (emptyResult ip)
  rw [hfold] at h₁
  rw [h₁] at h₂
  cases Option.some.inj h₂
  exact ⟨⟨rfl, rfl, rfl⟩, rfl, rfl, rfl⟩

/-- Witness for C1: a concrete ARP + ICMP + TCP finding sequence and its
reversal both merge to the same concrete record, and applying the claim
theorem to the pair gives the flag and field agreement. -/
theorem mergeSeq_perm_invariant_witness :
    mergeSeq ([ProbeFinding.arp "aa:bb:cc:dd:ee:01" "AcmeNIC",
        ProbeFinding.icmp 5, ProbeFinding.tcp].map
        (ProbeFinding.toResult "192.168.1.10")) =
      some { IP := "192.168.1.10", FoundByARP := true, FoundByICMP := true,
             FoundByTCP := true, MAC := "aa:bb:cc:dd:ee:01", Vendor := "AcmeNIC",
             ResponseTime := 5 } ∧
    mergeSeq ([ProbeFinding.tcp, ProbeFinding.icmp 5,
        ProbeFinding.arp "aa:bb:cc:dd:ee:01" "AcmeNIC"].map
        (ProbeFinding.toResult "192.168.1.10")) =
      some { IP := "192.168.1.10", FoundByARP := true, FoundByICMP := true,
             FoundByTCP := true, MAC := "aa:bb:cc:dd:ee:01", Vendor := "AcmeNIC",
             ResponseTime := 5 } ∧
    ((true : Bool) = true ∧ (true : Bool) = true ∧ (true : Bool) = true) ∧
    "aa:bb:cc:dd:ee:01" = "aa:bb:cc:dd:ee:01" ∧ "AcmeNIC" = "AcmeNIC" ∧
    (5 : Nat) = 5 :=
  ⟨by decide, by decide,
    mergeSeq_perm_invariant "192.168.1.10"
      [ProbeFinding.arp "aa:bb:cc:dd:ee:01" "AcmeNIC", ProbeFinding.icmp 5,
        ProbeFinding.tcp]
      [ProbeFinding.tcp, ProbeFinding.icmp 5,
        ProbeFinding.arp "aa:bb:cc:dd:ee:01" "AcmeNIC"]
      { IP := "192.168.1.10", FoundByARP := true, FoundByICMP := true,
        FoundByTCP := true, MAC := "aa:bb:cc:dd:ee:01", Vendor := "AcmeNIC",
        ResponseTime := 5 }
      { IP := "192.168.1.10", FoundByARP := true, FoundByICMP := true,
        FoundByTCP := true, MAC := "aa:bb:cc:dd:ee:01", Vendor := "AcmeNIC",
        ResponseTime := 5 }
      (by decide) (by decide) (by decide) (by decide)⟩

/-! ## The orchestrator pipeline of EnhancedDiscovery.DiscoverHosts -/

/-- Character-list splitting on a single-character separator, modelling
strings.Split (part_000 line 271) and the address/mask split of
net.ParseCIDR, for the one-character separators the source uses.  Matching
the Go behavior: leading, trailing and repeated separators give empty parts,
and the empty string gives one empty part. -/
def splitOnChar (sep : Char) : List Char → List (List Char)
  | [] => [[]]
  | c :: rest =>
      if c = sep then [] :: splitOnChar sep rest
      else
        match splitOnChar sep rest with
        | [] => [[c]]
        | h :: t => (c :: h) :: t

/-- Leading decimal scan modelling fmt.Sscanf with verb d into a uint32
(part_000 line 278): the value of the leading digit run of the part, left at
the Go zero value 0 when there is no leading digit or the value overflows
uint32 (Sscanf then reports an error without assigning, and the source
ignores the error). -/
def scanUInt32 (l : List Char) : Nat :=
  let ds := l.takeWhile Char.isDigit
  if ds.isEmpty then 0
  else
    let v := ds.foldl (fun a c => a * 10 + (c.toNat - 48)) 0
    if v < 2 ^ 32 then v else 0

/-- Shallow embedding of ipToInt (part_000 lines 270-282): split the address
on the dots; a string without exactly 4 parts gives 0; otherwise each part is
scanned as a decimal and the octet values are shifted into position and ored
together, with uint32 arithmetic truncating the shift mod 2^32. -/
def ipToInt (ip : String) : Nat :=
  let parts := splitOnChar '.' ip.toList
  if parts.length = 4 then
    (List.range 4).foldl
      (fun acc i => acc ||| (scanUInt32 (parts.getD i []) <<< (8 * (3 - i))) % 2 ^ 32) 0
  else 0

/-- Discovery flags filter of DiscoverHosts (part_000 line 125). -/
def isActive (r : DiscoveryResult) : Bool :=
  r.FoundByARP || r.FoundByICMP || r.FoundByTCP

/-- One step of the orchestrator's collection loop (part_000 lines 113-120):
the first finding for an address creates its record, a later finding for an
already-seen address is merged into the existing record with mergeResults.
The Go map keyed by IP is modelled as an association list in first-arrival
order (Go map iteration order is unspecified; every property proved below is
insensitive to the order in which the map is later walked, because the final
slice is filtered by a per-record predicate and then sorted). -/
def insertFinding : List (String × DiscoveryResult) → DiscoveryResult →
    List (String × DiscoveryResult)
  | [], r => [(r.IP, r)]
  | (k, e) :: m, r =>
      if k = r.IP then (k, mergeResults e r) :: m else (k, e) :: insertFinding m r

/-- The whole collection loop (part_000 lines 112-120) over the stream of
findings arriving on the shared result channel, in arrival order. -/
def collectResults (findings : List DiscoveryResult) :
    List (String × DiscoveryResult) :=
  findings.foldl insertFinding []

/-- Per-record enrichment of performPortScanning (part_000 lines 232-255):
a resolved hostname is stored (lookup failure leaves the field alone), and
the open results of the host port scan are appended (scan failure leaves the
ports alone).  Reverse-DNS and port scanning are network I/O, abstracted into
the two oracles. -/
def enrichRecord (hostname : String → Option String)
    (scan : String → Option (List PortScanResult)) (r : DiscoveryResult) :
    DiscoveryResult :=
  let r1 :=
    match hostname r.IP with
    | some h => { r with Hostname := h }
    | none => r
  match scan r.IP with
  | some prs =>
      { r1 with OpenPorts := r1.OpenPorts ++ prs.filter (fun p => p.State = PortOpen) }
  | none => r1

/-- performPortScanning (part_000 lines 232-255) over the retained records. -/
def performPortScanning (hostname : String → Option String)
    (scan : String → Option (List PortScanResult)) (rs : List DiscoveryResult) :
    List DiscoveryResult :=
  rs.map (enrichRecord hostname scan)

/-- The comparison of the final sort (part_000 lines 139-141): not below in
the numeric dotted-quad order. -/
def ipLe (a b : DiscoveryResult) : Prop := ipToInt a.IP ≤ ipToInt b.IP

instance : DecidableRel ipLe := fun _ _ => Nat.decLe _ _

instance : IsTotal DiscoveryResult ipLe := ⟨fun _ _ => Nat.le_total _ _⟩

instance : IsTrans DiscoveryResult ipLe := ⟨fun _ _ _ => Nat.le_trans⟩

/-- The pure pipeline of EnhancedDiscovery.DiscoverHosts (part_000 lines
66-144) downstream of the concurrent producers: the stream of findings (in
some arrival order) is merged per address, filtered to the records found by
at least one method, optionally enriched with hostnames and open ports, and
sorted by numeric address value.  sort.Slice with the less function of lines
139-141 is modelled by insertion sort over ipLe, which satisfies the
sort.Slice contract (a permutation of its input, sorted by the comparison). -/
def DiscoverHosts (enablePortScan : Bool) (hostname : String → Option String)
    (scan : String → Option (List PortScanResult))
    (findings : List DiscoveryResult) : List DiscoveryResult :=
  let active := ((collectResults findings).map Prod.snd).filter isActive
  let enriched :=
    if enablePortScan && !active.isEmpty then performPortScanning hostname scan active
    else active
  List.insertionSort ipLe enriched

lemma enrichRecord_FoundByARP (hostname : String → Option String)
    (scan : String → Option (List PortScanResult)) (r : DiscoveryResult) :
    (enrichRecord hostname scan r).FoundByARP = r.FoundByARP := by
  unfold enrichRecord
  cases hostname r.IP <;> cases scan r.IP <;> rfl

lemma enrichRecord_FoundByICMP (hostname : String → Option String)
    (scan : String → Option (List PortScanResult)) (r : DiscoveryResult) :
    (enrichRecord hostname scan r).FoundByICMP = r.FoundByICMP := by
  unfold enrichRecord
  cases hostname r.IP <;> cases scan r.IP <;> rfl

lemma enrichRecord_FoundByTCP (hostname : String → Option String)
    (scan : String → Option (List PortScanResult)) (r : DiscoveryResult) :
    (enrichRecord hostname scan r).FoundByTCP = r.FoundByTCP := by
  unfold enrichRecord
  cases hostname r.IP <;> cases scan r.IP <;> rfl

/-- Claim C2: every DiscoveryResult contained in the slice returned by
DiscoverHosts has at least one of FoundByARP, FoundByICMP, FoundByTCP true;
a record with all three flags false never appears in the final result set. -/
theorem DiscoverHosts_flag_invariant (enablePortScan : Bool)
    (hostname : String → Option String)
    (scan : String → Option (List PortScanResult))
    (findings : List DiscoveryResult) (r : DiscoveryResult)
    (hr : r ∈ DiscoverHosts enablePortScan hostname scan findings) :
    r.FoundByARP = true ∨ r.FoundByICMP = true ∨ r.FoundByTCP = true := by
  unfold DiscoverHosts at hr
  have hr2 := (List.perm_insertionSort ipLe _).subset hr
  have hactive : ∀ x ∈ ((collectResults findings).map Prod.snd).filter isActive,
      x.FoundByARP = true ∨ x.FoundByICMP = true ∨ x.FoundByTCP = true := by
    intro x hx
    have := (List.mem_filter.mp hx).2
    simp only [isActive, Bool.or_eq_true] at this
    tauto
  by_cases hcond : (enablePortScan &&
      !(((collectResults findings).map Prod.snd).filter isActive).isEmpty) = true
  · rw [if_pos hcond] at hr2
    obtain ⟨x, hx, hxr⟩ := List.mem_map.mp hr2
    have hflags := hactive x hx
    rw [← hxr, enrichRecord_FoundByARP, enrichRecord_FoundByICMP,
      enrichRecord_FoundByTCP]
    exact hflags
  · rw [if_neg hcond] at hr2
    exact hactive r hr2

/-- Witness for C2: a single TCP finding survives the pipeline and the claim
theorem applied to it yields a set flag. -/
theorem DiscoverHosts_flag_invariant_witness :
    ({ IP := "10.0.0.1", FoundByTCP := true } : DiscoveryResult).FoundByARP = true ∨
    ({ IP := "10.0.0.1", FoundByTCP := true } : DiscoveryResult).FoundByICMP = true ∨
    ({ IP := "10.0.0.1", FoundByTCP := true } : DiscoveryResult).FoundByTCP = true :=
  DiscoverHosts_flag_invariant false (fun _ => none) (fun _ => none)
    [{ IP := "10.0.0.1", FoundByTCP := true }]
    { IP := "10.0.0.1", FoundByTCP := true } (by decide)

/-- Claim C8: the slice returned by DiscoverHosts is sorted in non-decreasing
order of the 32-bit numeric value of each record's address, as computed by
ipToInt (numeric dotted-quad value, not lexicographic string order). -/
theorem DiscoverHosts_sorted (enablePortScan : Bool)
    (hostname : String → Option String)
    (scan : String → Option (List PortScanResult))
    (findings : List DiscoveryResult) :
    (DiscoverHosts enablePortScan hostname scan findings).Pairwise ipLe :=
  List.sorted_insertionSort ipLe _

/-! ## CIDR expansion (src/pkg/network/cidr.go)

CIDRToIPRange parses the prefix with net.ParseCIDR and then walks the
address block.  The parser below follows Go's parseCIDR/parseIPv4/dtoi for
the IPv4 prefixes this repository operates on (ipToInt, ipsToNetwork and the
scanners all assume dotted quads); an address value is a Nat below 2^32. -/

/-- Decimal value of a digit run (the accumulation loop of Go's dtoi). -/
def digitsVal (l : List Char) : Nat :=
  l.foldl (fun a c => a * 10 + (c.toNat - 48)) 0

/-- One dotted-quad field as accepted by Go's parseIPv4: a non-empty digit
run, no leading zero unless the field is exactly "0", value at most 255. -/
def parseOctet (l : List Char) : Option Nat :=
  if l ≠ [] ∧ l.all Char.isDigit ∧ (l.length = 1 ∨ l.headD ' ' ≠ '0') ∧
      digitsVal l ≤ 255
  then some (digitsVal l) else none

/-- IPv4 dotted-quad parse (Go parseIPv4): exactly four valid octet fields
separated by dots; the result is the 32-bit numeric address value. -/
def parseIPv4 (l : List Char) : Option Nat :=
  match (splitOnChar '.' l).map parseOctet with
  | [some a, some b, some c, some d] =>
      some (a * 2 ^ 24 + b * 2 ^ 16 + c * 2 ^ 8 + d)
  | _ => none

/-- The mask-length field of net.ParseCIDR: a non-empty digit run (Go dtoi
semantics, leading zeros tolerated) whose value is at most 32 = 8*IPv4len. -/
def parseMaskLen (l : List Char) : Option Nat :=
  if l ≠ [] ∧ l.all Char.isDigit ∧ digitsVal l ≤ 32 then some (digitsVal l)
  else none

/-- net.ParseCIDR (cidr.go line 10) on the IPv4 prefixes of this repository:
the text before the slash must parse as a dotted quad, the text after it as a
mask length; the result is the pair (address value, mask length). -/
def parseCIDR (s : String) : Option (Nat × Nat) :=
  match splitOnChar '/' s.toList with
  | [a, m] =>
      match parseIPv4 a, parseMaskLen m with
      | some ip, some len => some (ip, len)
      | _, _ => none
  | _ => none

/-- CIDRMask(n, 32) as a 32-bit value: n leading one bits. -/
def mask32 (n : Nat) : Nat := 2 ^ 32 - 2 ^ (32 - n)

/-- net.IP.String() for a 4-byte address: the dotted-quad decimal form of the
octets of the 32-bit value, most significant first. -/
def ipToString (ip : Nat) : String :=
  Nat.repr (ip / 2 ^ 24 % 256) ++ "." ++ Nat.repr (ip / 2 ^ 16 % 256) ++ "." ++
    Nat.repr (ip / 2 ^ 8 % 256) ++ "." ++ Nat.repr (ip % 256)

/-- The enumeration loop of CIDRToIPRange (cidr.go lines 15-20): starting at
the masked address, append ip.String() while ipnet.Contains(ip) holds, where
Contains tests ip &&& mask = network and incrementIP increments with
wraparound (mod 2^32 for a 4-byte address).  The loop has no other exit, so a
run in which the containment test never fails does not terminate; the value
none models exactly that: the loop did not exit within `fuel` iterations. -/
def enumLoop (mask network : Nat) : Nat → Nat → Option (List String)
  | 0, ip => if ip &&& mask = network then none else some []
  | fuel + 1, ip =>
      if ip &&& mask = network then
        (enumLoop mask network fuel ((ip + 1) % 2 ^ 32)).map
          (fun l => ipToString ip :: l)
      else some []

/-- Observable outcome of CIDRToIPRange: a parse error (the function returns
nil and the error), divergence (the enumeration loop never exits, so the Go
call never returns), or the returned address list. -/
inductive CIDROutcome where
  | parseError
  | diverges
  | ips (l : List String)
  deriving DecidableEq

/-- Shallow embedding of CIDRToIPRange (cidr.go lines 9-27).  The fuel 2^32
covers every terminating run: the loop variable ranges over the 2^32 address
values and advances deterministically by +1 mod 2^32, so a run that makes
2^32 containment-passing steps has revisited its start state and never exits
(enumLoop_mask_zero below proves this outright for the mask-0 case, the only
divergent IPv4 case).  After the loop, the network (first) and broadcast
(last) addresses are stripped whenever more than two addresses were
collected (lines 23-25). -/
def CIDRToIPRange (s : String) : CIDROutcome :=
  match parseCIDR s with
  | none => .parseError
  | some (ip, len) =>
      match enumLoop (mask32 len) (ip &&& mask32 len) (2 ^ 32)
          (ip &&& mask32 len) with
      | none => .diverges
      | some ips => .ips (if ips.length > 2 then (ips.drop 1).dropLast else ips)

lemma parseOctet_le {l : List Char} {v : Nat} (h : parseOctet l = some v) :
    v ≤ 255 := by
  unfold parseOctet at h
  split at h
  · cases h
    rename_i hc
    exact hc.2.2.2
  · cases h

lemma parseIPv4_lt {l : List Char} {ip : Nat} (h : parseIPv4 l = some ip) :
    ip < 2 ^ 32 := by
  unfold parseIPv4 at h
  split at h
  · rename_i a b c d heq
    cases h
    have bound : ∀ v : Nat, some v ∈ (splitOnChar '.' l).map parseOctet →
        v ≤ 255 := by
      intro v hv
      obtain ⟨x, _, hx⟩ := List.mem_map.mp hv
      exact parseOctet_le hx
    have ha := bound a (by rw [heq]; simp)
    have hb := bound b (by rw [heq]; simp)
    have hc := bound c (by rw [heq]; simp)
    have hd := bound d (by rw [heq]; simp)
    have e24 : (2 : Nat) ^ 24 = 16777216 := by norm_num
    have e16 : (2 : Nat) ^ 16 = 65536 := by norm_num
    have e8 : (2 : Nat) ^ 8 = 256 := by norm_num
    have e32 : (2 : Nat) ^ 32 = 4294967296 := by norm_num
    rw [e24, e16, e8, e32]
    omega
  · cases h

lemma parseMaskLen_le {l : List Char} {n : Nat} (h : parseMaskLen l = some n) :
    n ≤ 32 := by
  unfold parseMaskLen at h
  split at h
  · cases h
    rename_i hc
    exact hc.2.2
  · cases h

lemma parseCIDR_bounds {s : String} {ip n : Nat}
    (h : parseCIDR s = some (ip, n)) : ip < 2 ^ 32 ∧ n ≤ 32 := by
  unfold parseCIDR at h
  split at h
  · split at h
    · rename_i hip hlen
      cases h
      exact ⟨parseIPv4_lt hip, parseMaskLen_le hlen⟩
    · cases h
  · cases h

/-- Bit-level bridge: masking a 32-bit value with the high bits down to bit k
rounds it down to a multiple of 2^k. -/
lemma and_mask_eq_div_mul (x k : Nat) (hx : x < 2 ^ 32) (hk : k ≤ 32) :
    x &&& (2 ^ 32 - 2 ^ k) = x / 2 ^ k * 2 ^ k := by
  have hmask : 2 ^ 32 - 2 ^ k = (2 ^ (32 - k) - 1) <<< k := by
    rw [Nat.shiftLeft_eq, Nat.sub_mul, ← Nat.pow_add, one_mul]
    congr 2
    omega
  have hrhs : x / 2 ^ k * 2 ^ k = (x >>> k) <<< k := by
    rw [Nat.shiftRight_eq_div_pow, Nat.shiftLeft_eq]
  rw [hmask, hrhs]
  apply Nat.eq_of_testBit_eq
  intro i
  simp only [Nat.testBit_and, Nat.testBit_shiftLeft, Nat.testBit_shiftRight,
    Nat.testBit_two_pow_sub_one]
  by_cases hik : k ≤ i
  · have hge : decide (i ≥ k) = true := by simp [ge_iff_le, hik]
    rw [hge]
    have harg : k + (i - k) = i := by omega
    rw [harg]
    by_cases hi32 : i < 32
    · have : decide (i - k < 32 - k) = true := by
        simp
        omega
      rw [this]
      simp
    · have hxf : x.testBit i = false := by
        apply Nat.testBit_lt_two_pow
        calc x < 2 ^ 32 := hx
          _ ≤ 2 ^ i := Nat.pow_le_pow_right (by norm_num) (by omega)
      rw [hxf]
      simp
  · have hge : decide (i ≥ k) = false := by simp [ge_iff_le, hik]
    rw [hge]
    simp

lemma and_mask32 (x n : Nat) (hx : x < 2 ^ 32) :
    x &&& mask32 n = x / 2 ^ (32 - n) * 2 ^ (32 - n) :=
  and_mask_eq_div_mul x (32 - n) hx (by omega)

/-- A full terminating run of the enumeration loop: starting j addresses into
a block of `size` addresses whose members all pass the containment test and
whose successor fails it, the loop collects exactly the remaining addresses
of the block, in ascending order. -/
lemma enumLoop_run (mask network size : Nat)
    (hcont : ∀ j, j < size → ((network + j) &&& mask) = network)
    (hexit : ¬ (((network + size) % 2 ^ 32) &&& mask) = network)
    (hwrap : network + size ≤ 2 ^ 32) :
    ∀ d j fuel, j + d = size → d < fuel →
      enumLoop mask network fuel ((network + j) % 2 ^ 32) =
        some ((List.range d).map (fun t => ipToString (network + j + t))) := by
  intro d
  induction d with
  | zero =>
      intro j fuel hj hfuel
      have hjs : j = size := by omega
      subst hjs
      cases fuel with
      | zero => omega
      | succ f =>
          simp only [enumLoop]
          rw [if_neg hexit]
          simp
  | succ d ih =>
      intro j fuel hj hfuel
      cases fuel with
      | zero => omega
      | succ f =>
          have hj' : j < size := by omega
          have hlt : network + j < 2 ^ 32 := by omega
          have hmod : (network + j) % 2 ^ 32 = network + j := Nat.mod_eq_of_lt hlt
          rw [hmod]
          simp only [enumLoop]
          rw [if_pos (hcont j hj')]
          have harg : network + j + 1 = network + (j + 1) := by omega
          rw [harg, ih (j + 1) f (by omega) (by omega)]
          have hfun : (fun t => ipToString (network + (j + 1) + t)) =
              (fun t => ipToString (network + j + (t + 1))) := by
            funext t
            congr 1
            omega
          rw [hfun]
          simp only [Option.map_some']
          have hlist : (List.range (d + 1)).map
              (fun t => ipToString (network + j + t)) =
              ipToString (network + j) :: (List.range d).map
                (fun t => ipToString (network + j + (t + 1))) := by
            rw [List.range_succ_eq_map, List.map_cons, List.map_map]
            congr 1
          rw [hlist]

/-- Dropping the first and last elements of a mapped (m+2)-range keeps the m
middle elements, shifted by one. -/
lemma range_map_drop_dropLast (f : Nat → String) (m : Nat) :
    (((List.range (m + 2)).map f).drop 1).dropLast =
      (List.range m).map (fun t => f (t + 1)) := by
  rw [List.range_succ_eq_map, List.map_cons, List.drop_succ_cons, List.drop_zero,
    List.map_map, List.range_succ, List.map_append, List.map_singleton,
    List.dropLast_concat]
  rfl

/-- Claim C3 as amended: for every CIDR string that parses successfully as an
IPv4 prefix of length at least 1, CIDRToIPRange returns the addresses of the
prefix in ascending numeric order with the network (first) and broadcast
(last) addresses excluded when the prefix holds more than two addresses, so
the returned count is the prefix size minus 2; a prefix of one or two
addresses is returned whole.  (For prefix length 0 the enumeration loop never
exits; see the counterexample theorem.) -/
theorem CIDRToIPRange_spec (s : String) (ip n : Nat)
    (hp : parseCIDR s = some (ip, n)) (hn : 1 ≤ n) :
    (2 < 2 ^ (32 - n) →
      CIDRToIPRange s = CIDROutcome.ips ((List.range (2 ^ (32 - n) - 2)).map
        (fun t => ipToString ((ip &&& mask32 n) + 1 + t))) ∧
      ((List.range (2 ^ (32 - n) - 2)).map
        (fun t => ipToString ((ip &&& mask32 n) + 1 + t))).length =
        2 ^ (32 - n) - 2) ∧
    (2 ^ (32 - n) ≤ 2 →
      CIDRToIPRange s = CIDROutcome.ips ((List.range (2 ^ (32 - n))).map
        (fun t => ipToString ((ip &&& mask32 n) + t)))) := by
  obtain ⟨hip, hn32⟩ := parseCIDR_bounds hp
  have hk31 : 32 - n ≤ 31 := by omega
  have hsize_pos : 0 < 2 ^ (32 - n) := Nat.pos_pow_of_pos _ (by norm_num)
  have hsize_le : 2 ^ (32 - n) ≤ 2 ^ 31 := Nat.pow_le_pow_right (by norm_num) hk31
  have h31lt : (2 : Nat) ^ 31 < 2 ^ 32 := by norm_num
  have hnet_eq : ip &&& mask32 n = ip / 2 ^ (32 - n) * 2 ^ (32 - n) :=
    and_mask32 ip n hip
  have h2_32 : (2 : Nat) ^ 32 = 2 ^ n * 2 ^ (32 - n) := by
    rw [← Nat.pow_add]
    congr 1
    omega
  have hdiv_lt : ip / 2 ^ (32 - n) < 2 ^ n := by
    apply Nat.div_lt_of_lt_mul
    calc ip < 2 ^ 32 := hip
      _ = 2 ^ (32 - n) * 2 ^ n := by
          rw [← Nat.pow_add]
          congr 1
          omega
  have hwrap : (ip &&& mask32 n) + 2 ^ (32 - n) ≤ 2 ^ 32 := by
    rw [hnet_eq, h2_32]
    have hstep : (ip / 2 ^ (32 - n) + 1) * 2 ^ (32 - n) ≤ 2 ^ n * 2 ^ (32 - n) :=
      Nat.mul_le_mul_right _ (by omega)
    calc ip / 2 ^ (32 - n) * 2 ^ (32 - n) + 2 ^ (32 - n)
        = (ip / 2 ^ (32 - n) + 1) * 2 ^ (32 - n) := by ring
      _ ≤ 2 ^ n * 2 ^ (32 - n) := hstep
  have hnet_lt : ip &&& mask32 n < 2 ^ 32 := by omega
  have hcont : ∀ j, j < 2 ^ (32 - n) →
      (((ip &&& mask32 n) + j) &&& mask32 n) = ip &&& mask32 n := by
    intro j hj
    have hlt : (ip &&& mask32 n) + j < 2 ^ 32 := by omega
    rw [and_mask32 _ n hlt, hnet_eq]
    have hsw : ip / 2 ^ (32 - n) * 2 ^ (32 - n) + j =
        2 ^ (32 - n) * (ip / 2 ^ (32 - n)) + j := by ring
    rw [hsw, Nat.mul_add_div hsize_pos, Nat.div_eq_of_lt hj, Nat.add_zero]
  have hexit : ¬ ((((ip &&& mask32 n) + 2 ^ (32 - n)) % 2 ^ 32) &&& mask32 n)
      = ip &&& mask32 n := by
    by_cases hend : (ip &&& mask32 n) + 2 ^ (32 - n) = 2 ^ 32
    · rw [hend, Nat.mod_self, Nat.zero_and]
      intro h0
      omega
    · have hlt : (ip &&& mask32 n) + 2 ^ (32 - n) < 2 ^ 32 := by omega
      rw [Nat.mod_eq_of_lt hlt, and_mask32 _ n hlt, hnet_eq]
      have harg : ip / 2 ^ (32 - n) * 2 ^ (32 - n) + 2 ^ (32 - n) =
          2 ^ (32 - n) * (ip / 2 ^ (32 - n) + 1) := by ring
      rw [harg, Nat.mul_div_cancel_left _ hsize_pos]
      intro heq
      have hdivs := congrArg (· / 2 ^ (32 - n)) heq
      simp only [Nat.mul_div_cancel_left _ hsize_pos,
        Nat.mul_div_cancel _ hsize_pos] at hdivs
      omega
  have henum := enumLoop_run (mask32 n) (ip &&& mask32 n) (2 ^ (32 - n))
    hcont hexit hwrap (2 ^ (32 - n)) 0 (2 ^ 32) (by omega) (by omega)
  rw [Nat.add_zero, Nat.mod_eq_of_lt hnet_lt] at henum
  constructor
  · intro hbig
    refine ⟨?_, by simp⟩
    unfold CIDRToIPRange
    rw [hp]
    simp only
    rw [henum]
    simp only [List.length_map, List.length_range]
    rw [if_pos hbig]
    obtain ⟨m, hm⟩ : ∃ m, 2 ^ (32 - n) = m + 2 := ⟨2 ^ (32 - n) - 2, by omega⟩
    rw [hm]
    have hdrop := range_map_drop_dropLast
      (fun t => ipToString ((ip &&& mask32 n) + t)) m
    rw [hdrop]
    have hmm : m + 2 - 2 = m := by omega
    rw [hmm]
    have hfin : List.map (fun t => ipToString ((ip &&& mask32 n) + (t + 1)))
        (List.range m) =
        List.map (fun t => ipToString ((ip &&& mask32 n) + 1 + t))
          (List.range m) := by
      apply List.map_congr_left
      intro t _
      congr 1
      omega
    rw [hfin]
  · intro hsmall
    unfold CIDRToIPRange
    rw [hp]
    simp only
    rw [henum]
    simp only [List.length_map, List.length_range]
    rw [if_neg (by omega)]

/-- With mask 0 (a /0 prefix) every address passes the containment test, so
the enumeration loop never exits, whatever the fuel. -/
lemma enumLoop_mask_zero (fuel : Nat) : ∀ ip, enumLoop 0 0 fuel ip = none := by
  induction fuel with
  | zero =>
      intro ip
      simp [enumLoop, Nat.and_zero]
  | succ f ih =>
      intro ip
      simp [enumLoop, Nat.and_zero, ih]

lemma CIDRToIPRange_of_enumLoop_none (s : String) (ip n : Nat)
    (hp : parseCIDR s = some (ip, n))
    (h : enumLoop (mask32 n) (ip &&& mask32 n) (2 ^ 32) (ip &&& mask32 n) = none) :
    CIDRToIPRange s = CIDROutcome.diverges := by
  unfold CIDRToIPRange
  rw [hp]
  simp only
  rw [h]

/-- Counterexample to C3 as stated: the prefix 0.0.0.0/0 parses successfully
and denotes 2^32 > 2 addresses, yet CIDRToIPRange does not return its address
list - the enumeration loop never exits (every address is contained and
incrementIP wraps around), so the call diverges instead of returning the
prefix minus network and broadcast. -/
theorem CIDRToIPRange_div0 : CIDRToIPRange "0.0.0.0/0" = CIDROutcome.diverges :=
  CIDRToIPRange_of_enumLoop_none "0.0.0.0/0" 0 0 (by decide)
    (by
      have hm : mask32 0 = 0 := by norm_num [mask32]
      rw [hm, Nat.zero_and]
      exact enumLoop_mask_zero _ _)

/-- Witness for C3 (amended) on the spec's scenario: 192.168.1.0/24 expands
to the 254 addresses 192.168.1.1 through 192.168.1.254. -/
theorem CIDRToIPRange_spec_witness :
    CIDRToIPRange "192.168.1.0/24" = CIDROutcome.ips ((List.range 254).map
      (fun t => ipToString ((3232235776 &&& mask32 24) + 1 + t))) ∧
    ipToString ((3232235776 &&& mask32 24) + 1 + 0) = "192.168.1.1" ∧
    ipToString ((3232235776 &&& mask32 24) + 1 + 253) = "192.168.1.254" ∧
    ((List.range 254).map
      (fun t => ipToString ((3232235776 &&& mask32 24) + 1 + t))).length = 254 := by
  refine ⟨?_, by decide, by decide, by simp⟩
  exact ((CIDRToIPRange_spec "192.168.1.0/24" 3232235776 24 (by decide)
    (by decide)).1 (by norm_num)).1

/-- Claim C9: CIDRToIPRange masks the input address before enumerating, so
two CIDR strings that parse to the same prefix length and the same masked
network expand to identical address lists - expansion is invariant under
changes to the host portion of the input string. -/
theorem CIDRToIPRange_mask_invariant (s₁ s₂ : String) (ip₁ ip₂ n : Nat)
    (h₁ : parseCIDR s₁ = some (ip₁, n)) (h₂ : parseCIDR s₂ = some (ip₂, n))
    (hmask : ip₁ &&& mask32 n = ip₂ &&& mask32 n) :
    CIDRToIPRange s₁ = CIDRToIPRange s₂ := by
  unfold CIDRToIPRange
  rw [h₁, h₂]
  simp only [hmask]

/-- Witness for C9: 192.168.1.77/24 expands exactly as 192.168.1.0/24. -/
theorem CIDRToIPRange_mask_invariant_witness :
    CIDRToIPRange "192.168.1.77/24" = CIDRToIPRange "192.168.1.0/24" :=
  CIDRToIPRange_mask_invariant "192.168.1.77/24" "192.168.1.0/24"
    3232235853 3232235776 24 (by decide) (by decide) (by decide)

/-! ## ScanNetworkParallel as a labelled transition system
(src/pkg/network/arp_parallel.go lines 39-111)

The routine is genuinely concurrent: worker goroutines pull addresses from
the buffered ipChan, push resolution results to resultChan and a first
socket-creation error to the 1-slot errChan, while the main goroutine either
sends the next address or receives an error (a Go select with both ready
picks either), then closes the channel, waits for the workers and returns.
The model below is a small-step transition system over that state: `send`,
`recvErr` and `closeChan`/`finish` are the main goroutine's moves (recvErr is
only possible while addresses remain to send, because the select sits inside
the send loop; the buffered ipChan of capacity len(ips) means send is always
ready), `workerTake` is one worker loop iteration (create a client - which
may fail, the worker then pushes the error if the slot is free and returns -
then resolve with retries: success yields a result, exhausted retries yield
nothing), and `workerExit` is a worker finding the closed drained channel.
The environment's behavior per address is the oracle; a trace is any
interleaving, checked by the executable step function. -/
/-- ARPResult (src/unnamed/part_001 lines 20-24). -/
structure ARPResult where
  IP : String
  MAC : String
  Vendor : String
  deriving DecidableEq

/-- What the environment does for one worker iteration on one address:
NewARPScanner fails (sockErr), scanIPWithRetry succeeds (resolved), or the
bounded retries are exhausted with no answer (noAnswer). -/
inductive ARPOutcome where
  | sockErr
  | resolved (mac vendor : String)
  | noAnswer
  deriving DecidableEq

/-- The shared state of one ScanNetworkParallel invocation: the addresses
not yet sent, the ipChan buffer, whether ipChan is closed, the 1-slot errChan
content, the number of running workers, the collected results, and the value
returned to the caller once the main goroutine returns (none while it has
not). -/
structure ScanState where
  pending : List String
  buf : List String
  chanClosed : Bool
  errBuf : Option String
  running : Nat
  found : List ARPResult
  ret : Option (Option (List ARPResult) × Option String)
  deriving DecidableEq

/-- One scheduling step of the system. -/
inductive ScanAction where
  | send
  | recvErr
  | closeChan
  | finish
  | workerTake
  | workerExit
  deriving DecidableEq

/-- The guarded transition function: none when the action is not enabled in
the state.  send/recvErr are the two branches of the select at lines 95-102
(both require addresses left to send and no return yet); closeChan is line
103; finish is the return at lines 106-110 (all workers done); workerTake is
one iteration of the worker loop at lines 57-82 (client creation failure
pushes the first error into the 1-slot errChan - the select with default at
lines 67-70 - and ends the worker; a resolution failure of scanIPWithRetry
is dropped at lines 75-78); workerExit is the worker loop ending on the
closed, drained channel. -/
def step (oracle : String → ARPOutcome) (st : ScanState) :
    ScanAction → Option ScanState
  | .send =>
      match st.pending with
      | [] => none
      | ip :: rest =>
          if st.ret = none ∧ st.chanClosed = false then
            some { st with pending := rest, buf := st.buf ++ [ip] }
          else none
  | .recvErr =>
      match st.errBuf, st.pending with
      | some e, _ :: _ =>
          if st.ret = none ∧ st.chanClosed = false then
            some { st with
              errBuf := none
              chanClosed := true
              ret := some (none, some e) }
          else none
      | _, _ => none
  | .closeChan =>
      if st.ret = none ∧ st.chanClosed = false ∧ st.pending = [] then
        some { st with chanClosed := true }
      else none
  | .finish =>
      if st.ret = none ∧ st.chanClosed = true ∧ st.running = 0 then
        some { st with ret := some (some st.found, none) }
      else none
  | .workerTake =>
      match st.buf with
      | [] => none
      | ip :: rest =>
          if st.running ≠ 0 then
            match oracle ip with
            | .sockErr =>
                some { st with
                  buf := rest
                  running := st.running - 1
                  errBuf := if st.errBuf.isNone
                    then some "failed to create ARP client" else st.errBuf }
            | .resolved mac vendor =>
                some { st with
                  buf := rest
                  found := st.found ++ [{ IP := ip, MAC := mac, Vendor := vendor }] }
            | .noAnswer => some { st with buf := rest }
          else none
  | .workerExit =>
      if st.running ≠ 0 ∧ st.chanClosed = true ∧ st.buf = [] then
        some { st with running := st.running - 1 }
      else none

/-- Run a schedule: the resulting state, or none if some action was not
enabled. -/
def runTrace (oracle : String → ARPOutcome) :
    ScanState → List ScanAction → Option ScanState
  | st, [] => some st
  | st, a :: rest =>
      match step oracle st a with
      | some st2 => runTrace oracle st2 rest
      | none => none

/-- The state right after the channels are set up (lines 45-50). -/
def initState (ips : List String) (workers : Nat) : ScanState :=
  { pending := ips, buf := [], chanClosed := false, errBuf := none,
    running := workers, found := [], ret := none }

/-- Every collected result comes from an address the environment actually
resolved. -/
def Resolved (oracle : String → ARPOutcome) (rs : List ARPResult) : Prop :=
  ∀ r ∈ rs, oracle r.IP = ARPOutcome.resolved r.MAC r.Vendor

/-- Invariant maintained by every step when the environment never fails
socket creation: the error slot stays empty, a completed return carries the
collected results and a nil error, and every collected result was resolved. -/
def GoodState (oracle : String → ARPOutcome) (st : ScanState) : Prop :=
  st.errBuf = none ∧
  (st.ret = none ∨ ∃ rs, st.ret = some (some rs, none) ∧ Resolved oracle rs) ∧
  Resolved oracle st.found

lemma step_preserves (oracle : String → ARPOutcome)
    (hns : ∀ ip, oracle ip ≠ ARPOutcome.sockErr) (st st2 : ScanState)
    (a : ScanAction) (hstep : step oracle st a = some st2)
    (hg : GoodState oracle st) : GoodState oracle st2 := by
  obtain ⟨he, hr, hf⟩ := hg
  cases a with
  | send =>
      simp only [step] at hstep
      cases hp : st.pending with
      | nil =>
          simp only [hp] at hstep
          exact Option.noConfusion hstep
      | cons ip rest =>
          simp only [hp] at hstep
          split_ifs at hstep
          injection hstep with h
          subst h
          exact ⟨he, hr, hf⟩
  | recvErr =>
      simp only [step] at hstep
      simp only [he] at hstep
      exact Option.noConfusion hstep
  | closeChan =>
      simp only [step] at hstep
      split_ifs at hstep
      injection hstep with h
      subst h
      exact ⟨he, hr, hf⟩
  | finish =>
      simp only [step] at hstep
      split_ifs at hstep
      injection hstep with h
      subst h
      exact ⟨he, Or.inr ⟨st.found, rfl, hf⟩, hf⟩
  | workerTake =>
      simp only [step] at hstep
      cases hp : st.buf with
      | nil =>
          simp only [hp] at hstep
          exact Option.noConfusion hstep
      | cons ip rest =>
          simp only [hp, he, Option.isNone_none, eq_self_iff_true, if_true] at hstep
          split_ifs at hstep
          cases ho : oracle ip with
          | sockErr => exact absurd ho (hns ip)
          | resolved mac vendor =>
              simp only [ho] at hstep
              injection hstep with h
              subst h
              refine ⟨rfl, hr, ?_⟩
              intro r hrmem
              rcases List.mem_append.mp hrmem with hold | hnew
              · exact hf r hold
              · rw [List.mem_singleton.mp hnew]
                exact ho
          | noAnswer =>
              simp only [ho] at hstep
              injection hstep with h
              subst h
              exact ⟨rfl, hr, hf⟩
  | workerExit =>
      simp only [step] at hstep
      split_ifs at hstep
      injection hstep with h
      subst h
      exact ⟨he, hr, hf⟩

lemma runTrace_preserves (oracle : String → ARPOutcome)
    (hns : ∀ ip, oracle ip ≠ ARPOutcome.sockErr) :
    ∀ (tr : List ScanAction) (st st2 : ScanState),
      runTrace oracle st tr = some st2 → GoodState oracle st →
        GoodState oracle st2 := by
  intro tr
  induction tr with
  | nil =>
      intro st st2 hrun hg
      cases hrun
      exact hg
  | cons a rest ih =>
      intro st st2 hrun hg
      unfold runTrace at hrun
      cases hstep : step oracle st a with
      | none => rw [hstep] at hrun; cases hrun
      | some stm =>
          rw [hstep] at hrun
          exact ih stm st2 hrun (step_preserves oracle hns st stm a hstep hg)

/-- Claim C4 as amended: in every complete schedule of ScanNetworkParallel
in which no worker fails to open a link-layer socket, the call returns a nil
error, and the returned results contain an entry only for addresses whose
resolution succeeded - a per-address resolution failure (no ARP answer after
the bounded retries) is silently dropped: it produces no result entry and
never causes a non-nil error return.  (The first half of the original claim -
that a socket failure always aborts the batch with a non-nil error - is
refuted by the counterexample theorem: propagation is schedule-dependent.) -/
theorem ScanNetworkParallel_silent_drop (oracle : String → ARPOutcome)
    (hns : ∀ ip, oracle ip ≠ ARPOutcome.sockErr)
    (ips : List String) (workers : Nat) (tr : List ScanAction) (st : ScanState)
    (hrun : runTrace oracle (initState ips workers) tr = some st)
    (res : Option (List ARPResult)) (err : Option String)
    (hret : st.ret = some (res, err)) :
    err = none ∧ ∃ rs, res = some rs ∧
      ∀ r ∈ rs, oracle r.IP = ARPOutcome.resolved r.MAC r.Vendor := by
  have hg : GoodState oracle st :=
    runTrace_preserves oracle hns tr (initState ips workers) st hrun
      ⟨rfl, Or.inl rfl, fun r hr => absurd hr (List.not_mem_nil r)⟩
  obtain ⟨-, hror, -⟩ := hg
  rcases hror with hnone | ⟨rs, hsome, hres⟩
  · rw [hnone] at hret
    exact Option.noConfusion hret
  · rw [hsome] at hret
    injection hret with hpair
    injection hpair with h1 h2
    exact ⟨h2.symm, rs, h1.symm, hres⟩

/-- Counterexample to C4 as stated: a complete schedule in which the one
worker's socket-creation failure is never observed by the dispatcher - the
buffered ipChan lets every send complete first - so ScanNetworkParallel
returns an empty result list with a nil error despite the failure, instead
of aborting with the error. -/
theorem ScanNetworkParallel_sockErr_swallowed :
    (runTrace (fun _ => ARPOutcome.sockErr) (initState ["192.168.1.1"] 1)
      [ScanAction.send, ScanAction.closeChan, ScanAction.workerTake,
        ScanAction.finish]).map ScanState.ret =
      some (some (some [], none)) := by
  decide

/-- For contrast: a different schedule of the same failing environment in
which the dispatcher still has an address to send, selects the error branch,
and does propagate the socket failure as a non-nil error - propagation is
schedule-dependent, not guaranteed. -/
lemma ScanNetworkParallel_sockErr_may_propagate :
    (runTrace (fun _ => ARPOutcome.sockErr) (initState ["192.168.1.1", "192.168.1.2"] 1)
      [ScanAction.send, ScanAction.workerTake, ScanAction.recvErr]).map ScanState.ret =
      some (some (none, some "failed to create ARP client")) := by
  decide

/-- Witness for C4 (amended): a concrete two-address run, one resolved and
one unanswered, returns exactly the one resolved entry with a nil error. -/
theorem ScanNetworkParallel_silent_drop_witness :
    (none : Option String) = none ∧
    ∃ rs, (some [({ IP := "10.0.0.1", MAC := "aa:bb", Vendor := "AcmeNIC" } : ARPResult)] :
        Option (List ARPResult)) = some rs ∧
      ∀ r ∈ rs,
        (fun ip => if ip = "10.0.0.1"
          then ARPOutcome.resolved "aa:bb" "AcmeNIC"
          else ARPOutcome.noAnswer) r.IP = ARPOutcome.resolved r.MAC r.Vendor := by
  refine ScanNetworkParallel_silent_drop
    (fun ip => if ip = "10.0.0.1"
      then ARPOutcome.resolved "aa:bb" "AcmeNIC"
      else ARPOutcome.noAnswer)
    (by
      intro ip
      by_cases h : ip = "10.0.0.1" <;> simp [h])
    ["10.0.0.1", "10.0.0.2"] 1
    [ScanAction.send, ScanAction.send, ScanAction.closeChan,
      ScanAction.workerTake, ScanAction.workerTake, ScanAction.workerExit,
      ScanAction.finish]
    { pending := [], buf := [], chanClosed := true, errBuf := none,
      running := 0,
      found := [{ IP := "10.0.0.1", MAC := "aa:bb", Vendor := "AcmeNIC" }],
      ret := some (some [{ IP := "10.0.0.1", MAC := "aa:bb", Vendor := "AcmeNIC" }], none) }
    (by decide)
    (some [{ IP := "10.0.0.1", MAC := "aa:bb", Vendor := "AcmeNIC" }])
    none rfl
